import Mathlib

/-!
Verification of the block-manipulation core of iQPuzzle (src/CBlock.cpp).

The embedding models the state of one `CBlock` (a puzzle piece or barrier),
its gesture handlers (`mousePressEvent`, `mouseReleaseEvent`, `wheelEvent`),
grid snapping (`snapToGrid`), the constructor, and the collision scan
(`checkCollision`).  Qt geometry (`QPointF`, `QPolygonF`, `QTransform` for
the exact 90-degree cases) is embedded over exact rationals; the opaque
painter-path boolean-operation engine used by `checkCollision`
(`QPainterPath::intersected` / `simplified` / `boundingRect`) is an explicit
interface parameter, instantiated concretely for axis-aligned rectangular
paths where concrete evaluations are needed.
-/

namespace IQPuzzle

/-- A planar point, modelling `QPointF` with exact rationals in place of
`qreal` doubles (the source applies only ring operations and exact
90-degree transforms, so rational arithmetic is a faithful model). -/
abbrev PointQ := ℚ × ℚ

/-- A polygon outline, modelling `QPolygonF` as its vertex list. -/
abbrev Poly := List PointQ

/-- `QPolygonF::translate(dx, dy)`: shift every vertex by the offset. -/
def translatePath (c : PointQ) (s : Poly) : Poly :=
  s.map (fun p => (p.1 + c.1, p.2 + c.2))

/-- Least element of a coordinate list, `0` for the empty list
(`QPolygonF::boundingRect` of an empty polygon is the null rectangle). -/
def minL : List ℚ → ℚ
  | [] => 0
  | a :: l => l.foldl min a

/-- Greatest element of a coordinate list, `0` for the empty list. -/
def maxL : List ℚ → ℚ
  | [] => 0
  | a :: l => l.foldl max a

/-- The x coordinates of a polygon. -/
def xsOf (s : Poly) : List ℚ := s.map Prod.fst

/-- The y coordinates of a polygon. -/
def ysOf (s : Poly) : List ℚ := s.map Prod.snd

/-- Width of `QPolygonF::boundingRect` (max x minus min x of the vertices). -/
def bWidth (s : Poly) : ℚ := maxL (xsOf s) - minL (xsOf s)

/-- Height of `QPolygonF::boundingRect` (max y minus min y of the vertices). -/
def bHeight (s : Poly) : ℚ := maxL (ysOf s) - minL (ysOf s)

/-- `QTransform::rotate(90)` applied to a point: `(x, y) ↦ (-y, x)`
(Qt row-vector convention `x1 = x*m11 + y*m21`; Qt computes the 90-degree
case exactly).  In the on-screen frame, whose y axis points down, this is
a rotation by -90 degrees in the counterclockwise-positive sense. -/
def qtRot90 (p : PointQ) : PointQ := (-p.2, p.1)

/-- `QTransform::rotate(-90)` applied to a point: `(x, y) ↦ (y, -x)`;
on screen (y axis down) a rotation by +90 degrees. -/
def qtRotNeg90 (p : PointQ) : PointQ := (p.2, -p.1)

/-- The C++ `qreal → qint32` conversions in `CBlock::wheelEvent`
(`nTranslateX = this->boundingRect().height();` and the width analogue):
conversion of a floating value to a 32-bit integer truncates toward zero.
The dimensions at play are bounding-box sides, far below the `qint32`
range, so truncation is the whole effect. -/
def truncQ (q : ℚ) : ℤ := if 0 ≤ q then ⌊q⌋ else ⌈q⌉

/-- `qRound`: round half away from zero
(`d >= 0.0 ? int(d + 0.5) : int(d - 0.5)`). -/
def qRound (q : ℚ) : ℤ := if 0 ≤ q then ⌊q + 1/2⌋ else ⌈q - 1/2⌉

/-- `QSizeF::isEmpty`: true when width or height is not positive. -/
def sizeIsEmpty (sz : ℚ × ℚ) : Bool := decide (sz.1 ≤ 0) || decide (sz.2 ≤ 0)

/-- `QPolygonF::isClosed`: nonempty and first vertex equals last vertex. -/
def isClosedPoly (s : Poly) : Bool :=
  !s.isEmpty && decide (s.head? = s.getLast?)

/-- The flip performed by the right-button branch of
`CBlock::mousePressEvent`: map the shape through
`QTransform::fromScale(-1, 1)` (negate x), then translate by the bounding
width of the already-flipped shape (`this->boundingRect().width()` reads
`m_PolyShape` after the reassignment). -/
def flipShape (s : Poly) : Poly :=
  let flipped := s.map (fun p => (-p.1, p.2))
  translatePath (bWidth flipped, 0) flipped

/-- The shape update of the `delta < 0` branch of `CBlock::wheelEvent`:
rotate by `QTransform::rotate(90)`, then translate along x by the
truncated pre-rotation bounding height. -/
def rotStepDown (s : Poly) : Poly :=
  translatePath ((truncQ (bHeight s) : ℚ), 0) (s.map qtRot90)

/-- The shape update of the `delta >= 0` branch of `CBlock::wheelEvent`:
rotate by `QTransform::rotate(-90)`, then translate along y by the
truncated pre-rotation bounding width. -/
def rotStepUp (s : Poly) : Poly :=
  translatePath (0, (truncQ (bWidth s) : ℚ)) (s.map qtRotNeg90)

/-- State of one `CBlock`.  `m_nID` and `m_nGrid` are `quint16` in the
source; no claim involves wraparound, so plain naturals are used.  `pos`
and `zValue` are the inherited `QGraphicsItem` position and z value.  The
purely presentational members (`m_bgBrush`, `m_borderPen`, `m_pTransform`
as scratch space, the debug text item) are opaque to the logic and
omitted. -/
structure CBlock where
  m_nID : ℕ
  m_PolyShape : Poly
  m_nGrid : ℕ
  m_bBarrier : Bool
  m_bMousePressed : Bool
  pos : PointQ
  zValue : ℚ
  m_posBlockSelected : PointQ
deriving DecidableEq

/-- `CBlock::snapToGrid`: round each axis of `point / m_nGrid` to the
nearest integer (`qRound`) and rescale; the products are C++ `int`
arithmetic, hence exact integers. -/
def snapToGrid (nGrid : ℕ) (point : PointQ) : PointQ :=
  (((qRound (point.1 / (nGrid : ℚ)) * (nGrid : ℤ) : ℤ) : ℚ),
   ((qRound (point.2 / (nGrid : ℚ)) * (nGrid : ℤ) : ℤ) : ℚ))

/-- `CBlock::setNewZValue`: a negative request decrements the z value,
clamped below at 1; a non-negative request sets it directly. -/
def setNewZValue (b : CBlock) (nZ : ℤ) : CBlock :=
  if nZ < 0 then
    if 1 < b.zValue then { b with zValue := b.zValue - 1 }
    else { b with zValue := 1 }
  else { b with zValue := (nZ : ℚ) }

/-- Mouse buttons distinguished by the handlers. -/
inductive MouseBtn
  | left
  | right
  | other
deriving DecidableEq

/-- Wheel-event orientations. -/
inductive WheelOrient
  | vertical
  | horizontal
deriving DecidableEq

/-- The signals `CBlock` emits: `incrementMoves()` and
`checkPuzzleSolved()`. -/
inductive Sig
  | incrementMoves
  | checkPuzzleSolved
deriving DecidableEq

/-- Diagnostics written by the constructor via `qDebug` / `qWarning`. -/
inductive LogMsg
  | creatingBlock (nID : ℕ)
  | creatingBarrier (nID : ℕ)
  | shapeNotClosed (nID : ℕ)
deriving DecidableEq

/-- `CBlock::CBlock`: logs a creation line, warns — and continues — when
the shape polygon is not closed, stores the members, and moves to
`posTopLeft * m_nGrid` (`moveBlockGrid`).  The constructor has no failure
path: every input yields a fully initialised block.  (`setFlag` and
`setScale` are presentation-side effects.) -/
def mkCBlock (nID : ℕ) (shape : Poly) (nGrid : ℕ) (posTopLeft : PointQ)
    (bBarrier : Bool) : CBlock × List LogMsg :=
  ({ m_nID := nID, m_PolyShape := shape, m_nGrid := nGrid,
     m_bBarrier := bBarrier, m_bMousePressed := false,
     pos := (posTopLeft.1 * (nGrid : ℚ), posTopLeft.2 * (nGrid : ℚ)),
     zValue := 0, m_posBlockSelected := (0, 0) },
   (if bBarrier = false then [LogMsg.creatingBlock nID]
    else [LogMsg.creatingBarrier nID])
     ++ (if isClosedPoly shape = false then [LogMsg.shapeNotClosed nID]
         else []))

/-- `CBlock::mousePressEvent`.  The shared registry `*m_pListBlocks` is
passed and returned explicitly.  Left button on a non-barrier: mark
pressed, lower every registry entry by one z step, set the own z value to
`size + 2`, and record the current position in `m_posBlockSelected`.
Right button on a non-barrier: flip the shape in place.  Anything else
(including any press on a barrier) changes nothing. -/
def mousePressEvent (b : CBlock) (listBlocks : List CBlock) (btn : MouseBtn) :
    CBlock × List CBlock :=
  if btn = MouseBtn.left ∧ b.m_bBarrier = false then
    ({ b with m_bMousePressed := true,
              zValue := ((listBlocks.length + 2 : ℕ) : ℚ),
              m_posBlockSelected := b.pos },
     listBlocks.map (fun blk => setNewZValue blk (-1)))
  else if btn = MouseBtn.right ∧ b.m_bBarrier = false then
    ({ b with m_PolyShape := flipShape b.m_PolyShape }, listBlocks)
  else (b, listBlocks)

/-- `CBlock::wheelEvent`: only vertical wheel gestures on non-barriers do
anything; `delta < 0` rotates by 90 with the truncated-height x
re-anchoring, otherwise by -90 with the truncated-width y re-anchoring. -/
def wheelEvent (b : CBlock) (orient : WheelOrient) (delta : ℤ) : CBlock :=
  if orient = WheelOrient.vertical ∧ b.m_bBarrier = false then
    if delta < 0 then { b with m_PolyShape := rotStepDown b.m_PolyShape }
    else { b with m_PolyShape := rotStepUp b.m_PolyShape }
  else b

/-- Interface to the Qt geometry engine used by `CBlock::checkCollision`:
`collides` models the broad-phase `QGraphicsItem::collidesWithItem`, and
`interSize` models the pipeline
`thisPath.intersected(collidingPath).simplified().boundingRect().size()`. -/
structure Geom where
  collides : CBlock → CBlock → Bool
  interSize : Poly → Poly → ℚ × ℚ

/-- The shape of `blk` translated to board coordinates exactly as
`CBlock::checkCollision` builds `collidingPath` (and as
`mouseReleaseEvent` builds `thisPath`): translate by `pos / m_nGrid`,
where `m_nGrid` is the member of the block running the check. -/
def peerBoardPath (self blk : CBlock) : Poly :=
  translatePath (blk.pos.1 / (self.m_nGrid : ℚ), blk.pos.2 / (self.m_nGrid : ℚ))
    blk.m_PolyShape

/-- `CBlock::checkCollision`: scan the registry in order; for each entry
whose id differs from the own id and which passes the broad phase,
measure the simplified intersection with `thisPath`; return true at the
first entry whose intersection bounding size is not empty, false when
the scan ends. -/
def checkCollision (G : Geom) (self : CBlock) (thisPath : Poly) :
    List CBlock → Bool
  | [] => false
  | blk :: rest =>
    if blk.m_nID ≠ self.m_nID ∧ G.collides self blk = true then
      if sizeIsEmpty (G.interSize thisPath (peerBoardPath self blk)) then
        checkCollision G self thisPath rest
      else true
    else checkCollision G self thisPath rest

/-- The state produced by the snap step of `CBlock::mouseReleaseEvent`:
pressed flag cleared, position snapped to the grid. -/
def dragSnapped (b : CBlock) : CBlock :=
  { b with m_bMousePressed := false, pos := snapToGrid b.m_nGrid b.pos }

/-- `CBlock::mouseReleaseEvent`: on a left-button release of a
non-barrier, snap the position, emit `incrementMoves`, then check
collisions of the snapped board-coordinate shape against the registry; on
collision reset the position to the snapped `m_posBlockSelected`, else
emit `checkPuzzleSolved`.  Signals are returned in emission order. -/
def mouseReleaseEvent (G : Geom) (listBlocks : List CBlock) (b : CBlock)
    (btn : MouseBtn) : CBlock × List Sig :=
  if btn = MouseBtn.left ∧ b.m_bBarrier = false then
    let b1 : CBlock := dragSnapped b
    if checkCollision G b1 (peerBoardPath b1 b1) listBlocks then
      ({ b1 with pos := snapToGrid b1.m_nGrid b1.m_posBlockSelected },
       [Sig.incrementMoves])
    else (b1, [Sig.incrementMoves, Sig.checkPuzzleSolved])
  else (b, [])

/-- Bounding size of the intersection of two axis-aligned rectangular
paths: interval intersection on each axis.  On such inputs this is what
the Qt pipeline `intersected → simplified → boundingRect().size()`
produces (up to sign of the empty overlap, which `sizeIsEmpty` absorbs):
overlapping rectangles intersect in a rectangle, and rectangles sharing
only an edge or a corner leave a degenerate slab of zero width or
height. -/
def rectInterSize (a b : Poly) : ℚ × ℚ :=
  (min (maxL (xsOf a)) (maxL (xsOf b)) - max (minL (xsOf a)) (minL (xsOf b)),
   min (maxL (ysOf a)) (maxL (ysOf b)) - max (minL (ysOf a)) (minL (ysOf b)))

/-- Concrete geometry engine for axis-aligned rectangular paths, with a
broad phase that lets everything through (a sound over-approximation of
`collidesWithItem`). -/
def rectGeom : Geom := ⟨fun _ _ => true, rectInterSize⟩

/-- Concrete non-barrier block used for evaluations: a 5/2 by 3/2
axis-aligned rectangle at the origin on a unit grid. -/
def cBlockA : CBlock :=
  { m_nID := 1, m_PolyShape := [(0, 0), (5/2, 0), (5/2, 3/2), (0, 3/2), (0, 0)],
    m_nGrid := 1, m_bBarrier := false, m_bMousePressed := false,
    pos := (0, 0), zValue := 0, m_posBlockSelected := (0, 0) }

/-- Concrete block: unit square at the origin on a unit grid. -/
def cSquare0 : CBlock :=
  { m_nID := 1, m_PolyShape := [(0, 0), (1, 0), (1, 1), (0, 1), (0, 0)],
    m_nGrid := 1, m_bBarrier := false, m_bMousePressed := false,
    pos := (0, 0), zValue := 0, m_posBlockSelected := (0, 0) }

/-- Concrete block: unit square one cell to the right (touching
`cSquare0` along an edge in board coordinates). -/
def cSquare1 : CBlock :=
  { m_nID := 2, m_PolyShape := [(0, 0), (1, 0), (1, 1), (0, 1), (0, 0)],
    m_nGrid := 1, m_bBarrier := false, m_bMousePressed := false,
    pos := (1, 0), zValue := 0, m_posBlockSelected := (0, 0) }

/-- Concrete barrier block. -/
def cBarrier : CBlock :=
  { m_nID := 7, m_PolyShape := [(0, 0), (1, 0), (1, 1), (0, 1), (0, 0)],
    m_nGrid := 1, m_bBarrier := true, m_bMousePressed := false,
    pos := (3, 3), zValue := 0, m_posBlockSelected := (0, 0) }

/-! ### Bounding-box arithmetic -/

theorem foldl_min_map_add (l : List ℚ) (a c : ℚ) :
    (l.map (fun x => x + c)).foldl min (a + c) = l.foldl min a + c := by
  induction l generalizing a with
  | nil => rfl
  | cons x xs ih =>
    simp only [List.map_cons, List.foldl_cons, min_add_add_right]
    exact ih (min a x)

theorem foldl_max_map_add (l : List ℚ) (a c : ℚ) :
    (l.map (fun x => x + c)).foldl max (a + c) = l.foldl max a + c := by
  induction l generalizing a with
  | nil => rfl
  | cons x xs ih =>
    simp only [List.map_cons, List.foldl_cons, max_add_add_right]
    exact ih (max a x)

theorem foldl_min_map_neg (l : List ℚ) (a : ℚ) :
    (l.map (fun x => -x)).foldl min (-a) = -(l.foldl max a) := by
  induction l generalizing a with
  | nil => rfl
  | cons x xs ih =>
    simp only [List.map_cons, List.foldl_cons, min_neg_neg]
    exact ih (max a x)

theorem foldl_max_map_neg (l : List ℚ) (a : ℚ) :
    (l.map (fun x => -x)).foldl max (-a) = -(l.foldl min a) := by
  induction l generalizing a with
  | nil => rfl
  | cons x xs ih =>
    simp only [List.map_cons, List.foldl_cons, max_neg_neg]
    exact ih (min a x)

theorem minL_map_add (l : List ℚ) (c : ℚ) (h : l ≠ []) :
    minL (l.map (fun x => x + c)) = minL l + c := by
  cases l with
  | nil => exact absurd rfl h
  | cons a t =>
    simp only [List.map_cons, minL]
    exact foldl_min_map_add t a c

theorem maxL_map_add (l : List ℚ) (c : ℚ) (h : l ≠ []) :
    maxL (l.map (fun x => x + c)) = maxL l + c := by
  cases l with
  | nil => exact absurd rfl h
  | cons a t =>
    simp only [List.map_cons, maxL]
    exact foldl_max_map_add t a c

theorem minL_map_neg (l : List ℚ) (h : l ≠ []) :
    minL (l.map (fun x => -x)) = -(maxL l) := by
  cases l with
  | nil => exact absurd rfl h
  | cons a t =>
    simp only [List.map_cons, minL, maxL]
    exact foldl_min_map_neg t a

theorem maxL_map_neg (l : List ℚ) (h : l ≠ []) :
    maxL (l.map (fun x => -x)) = -(minL l) := by
  cases l with
  | nil => exact absurd rfl h
  | cons a t =>
    simp only [List.map_cons, minL, maxL]
    exact foldl_max_map_neg t a

theorem xsOf_translate (c : PointQ) (s : Poly) :
    xsOf (translatePath c s) = (xsOf s).map (fun x => x + c.1) := by
  simp [xsOf, translatePath, List.map_map, Function.comp]

theorem ysOf_translate (c : PointQ) (s : Poly) :
    ysOf (translatePath c s) = (ysOf s).map (fun y => y + c.2) := by
  simp [ysOf, translatePath, List.map_map, Function.comp]

theorem xsOf_rot90 (s : Poly) :
    xsOf (s.map qtRot90) = (ysOf s).map (fun y => -y) := by
  simp [xsOf, ysOf, qtRot90, List.map_map, Function.comp]

theorem ysOf_rot90 (s : Poly) : ysOf (s.map qtRot90) = xsOf s := by
  simp [xsOf, ysOf, qtRot90, List.map_map, Function.comp]

theorem xsOf_rotNeg90 (s : Poly) : xsOf (s.map qtRotNeg90) = ysOf s := by
  simp [xsOf, ysOf, qtRotNeg90, List.map_map, Function.comp]

theorem ysOf_rotNeg90 (s : Poly) :
    ysOf (s.map qtRotNeg90) = (xsOf s).map (fun x => -x) := by
  simp [xsOf, ysOf, qtRotNeg90, List.map_map, Function.comp]

theorem xsOf_negx (s : Poly) :
    xsOf (s.map (fun p => (-p.1, p.2))) = (xsOf s).map (fun x => -x) := by
  simp [xsOf, List.map_map, Function.comp]

theorem ysOf_negx (s : Poly) : ysOf (s.map (fun p => (-p.1, p.2))) = ysOf s := by
  simp [ysOf, List.map_map, Function.comp]

theorem xsOf_ne_nil {s : Poly} (h : s ≠ []) : xsOf s ≠ [] := by
  cases s with
  | nil => exact absurd rfl h
  | cons p t => simp [xsOf]

theorem ysOf_ne_nil {s : Poly} (h : s ≠ []) : ysOf s ≠ [] := by
  cases s with
  | nil => exact absurd rfl h
  | cons p t => simp [ysOf]

theorem bWidth_translate (c : PointQ) (s : Poly) :
    bWidth (translatePath c s) = bWidth s := by
  cases s with
  | nil => rfl
  | cons p t =>
    rw [bWidth, xsOf_translate,
      maxL_map_add _ _ (xsOf_ne_nil (List.cons_ne_nil p t)),
      minL_map_add _ _ (xsOf_ne_nil (List.cons_ne_nil p t)), bWidth]
    ring

theorem bHeight_translate (c : PointQ) (s : Poly) :
    bHeight (translatePath c s) = bHeight s := by
  cases s with
  | nil => rfl
  | cons p t =>
    rw [bHeight, ysOf_translate,
      maxL_map_add _ _ (ysOf_ne_nil (List.cons_ne_nil p t)),
      minL_map_add _ _ (ysOf_ne_nil (List.cons_ne_nil p t)), bHeight]
    ring

theorem bWidth_rot90 (s : Poly) : bWidth (s.map qtRot90) = bHeight s := by
  cases s with
  | nil => rfl
  | cons p t =>
    rw [bWidth, xsOf_rot90,
      maxL_map_neg _ (ysOf_ne_nil (List.cons_ne_nil p t)),
      minL_map_neg _ (ysOf_ne_nil (List.cons_ne_nil p t)), bHeight]
    ring

theorem bHeight_rot90 (s : Poly) : bHeight (s.map qtRot90) = bWidth s := by
  rw [bHeight, ysOf_rot90, bWidth]

theorem bWidth_rotNeg90 (s : Poly) : bWidth (s.map qtRotNeg90) = bHeight s := by
  rw [bWidth, xsOf_rotNeg90, bHeight]

theorem bHeight_rotNeg90 (s : Poly) : bHeight (s.map qtRotNeg90) = bWidth s := by
  cases s with
  | nil => rfl
  | cons p t =>
    rw [bHeight, ysOf_rotNeg90,
      maxL_map_neg _ (xsOf_ne_nil (List.cons_ne_nil p t)),
      minL_map_neg _ (xsOf_ne_nil (List.cons_ne_nil p t)), bWidth]
    ring

theorem bWidth_negx (s : Poly) :
    bWidth (s.map (fun p => (-p.1, p.2))) = bWidth s := by
  cases s with
  | nil => rfl
  | cons p t =>
    rw [bWidth, xsOf_negx,
      maxL_map_neg _ (xsOf_ne_nil (List.cons_ne_nil p t)),
      minL_map_neg _ (xsOf_ne_nil (List.cons_ne_nil p t)), bWidth]
    ring

theorem list_map_id {α : Type _} (l : List α) (f : α → α) (h : ∀ a, f a = a) :
    l.map f = l := by
  induction l with
  | nil => rfl
  | cons a t ih => rw [List.map_cons, h, ih]

/-! ### Flip and wheel-rotation shape algebra -/

theorem flipShape_eq (s : Poly) :
    flipShape s = s.map (fun p => (-p.1 + bWidth s, p.2)) := by
  show translatePath (bWidth (s.map (fun p => (-p.1, p.2))), 0)
      (s.map (fun p => (-p.1, p.2))) = _
  rw [bWidth_negx]
  simp [translatePath, List.map_map, Function.comp]

theorem bWidth_flipShape (s : Poly) : bWidth (flipShape s) = bWidth s := by
  show bWidth (translatePath (bWidth (s.map (fun p => (-p.1, p.2))), 0)
      (s.map (fun p => (-p.1, p.2)))) = _
  rw [bWidth_translate, bWidth_negx]

theorem flipShape_flipShape (s : Poly) : flipShape (flipShape s) = s := by
  rw [flipShape_eq (flipShape s), bWidth_flipShape, flipShape_eq s,
    List.map_map]
  apply list_map_id
  intro p
  obtain ⟨x, y⟩ := p
  simp only [Function.comp_apply, Prod.mk.injEq]
  refine ⟨by ring, trivial⟩

theorem rotStepDown_eq (s : Poly) :
    rotStepDown s = s.map (fun p => (-p.2 + (truncQ (bHeight s) : ℚ), p.1)) := by
  simp [rotStepDown, translatePath, qtRot90, List.map_map, Function.comp]

theorem rotStepUp_eq (s : Poly) :
    rotStepUp s = s.map (fun p => (p.2, -p.1 + (truncQ (bWidth s) : ℚ))) := by
  simp [rotStepUp, translatePath, qtRotNeg90, List.map_map, Function.comp]

theorem bWidth_rotStepDown (s : Poly) : bWidth (rotStepDown s) = bHeight s := by
  rw [rotStepDown, bWidth_translate, bWidth_rot90]

theorem bHeight_rotStepDown (s : Poly) : bHeight (rotStepDown s) = bWidth s := by
  rw [rotStepDown, bHeight_translate, bHeight_rot90]

theorem bWidth_rotStepUp (s : Poly) : bWidth (rotStepUp s) = bHeight s := by
  rw [rotStepUp, bWidth_translate, bWidth_rotNeg90]

theorem bHeight_rotStepUp (s : Poly) : bHeight (rotStepUp s) = bWidth s := by
  rw [rotStepUp, bHeight_translate, bHeight_rotNeg90]

theorem rotStepDown_four (s : Poly) :
    rotStepDown (rotStepDown (rotStepDown (rotStepDown s))) = s := by
  have h1 : bHeight (rotStepDown s) = bWidth s := bHeight_rotStepDown s
  have h2 : bHeight (rotStepDown (rotStepDown s)) = bHeight s := by
    rw [bHeight_rotStepDown, bWidth_rotStepDown]
  have h3 : bHeight (rotStepDown (rotStepDown (rotStepDown s))) = bWidth s := by
    rw [bHeight_rotStepDown, bWidth_rotStepDown, bHeight_rotStepDown]
  rw [rotStepDown_eq (rotStepDown (rotStepDown (rotStepDown s))), h3,
    rotStepDown_eq (rotStepDown (rotStepDown s)), h2,
    rotStepDown_eq (rotStepDown s), h1, rotStepDown_eq s,
    List.map_map, List.map_map, List.map_map]
  apply list_map_id
  intro p
  obtain ⟨x, y⟩ := p
  simp only [Function.comp_apply, Prod.mk.injEq]
  constructor
  · ring
  · ring

theorem qRound_intCast (k : ℤ) : qRound (k : ℚ) = k := by
  unfold qRound
  rcases le_or_lt 0 ((k : ℚ)) with h | h
  · rw [if_pos h, show ((k : ℚ) + 1/2) = 1/2 + (k : ℤ) from by ring,
      Int.floor_add_int, show ⌊(1/2 : ℚ)⌋ = 0 from by norm_num]
    ring
  · rw [if_neg (not_le.mpr h),
      show ((k : ℚ) - 1/2) = -(1/2) + (k : ℤ) from by ring,
      Int.ceil_add_int, show ⌈(-(1/2) : ℚ)⌉ = 0 from by norm_num]
    ring

theorem snapAxis_idem (g : ℕ) (hg : 0 < g) (q : ℚ) :
    qRound ((((qRound q * (g : ℤ)) : ℤ) : ℚ) / (g : ℚ)) = qRound q := by
  have hgQ : (g : ℚ) ≠ 0 := Nat.cast_ne_zero.mpr (Nat.pos_iff_ne_zero.mp hg)
  have h : ((((qRound q * (g : ℤ)) : ℤ) : ℚ) / (g : ℚ)) = ((qRound q : ℤ) : ℚ) := by
    push_cast
    field_simp
  rw [h, qRound_intCast]

theorem truncQ_ne_of_den_ne_one (q : ℚ) (h : q.den ≠ 1) :
    ((truncQ q : ℤ) : ℚ) ≠ q := by
  intro he
  exact h (he ▸ Rat.den_intCast (truncQ q))

theorem wheelEvent_barrier_eq (b : CBlock) (o : WheelOrient) (d : ℤ) :
    (wheelEvent b o d).m_bBarrier = b.m_bBarrier := by
  unfold wheelEvent
  split
  · split <;> rfl
  · rfl

/-- A wheel-down gesture (vertical, negative delta). -/
def wheelDown (b : CBlock) : CBlock := wheelEvent b WheelOrient.vertical (-1)

/-- A wheel-up gesture (vertical, positive delta). -/
def wheelUp (b : CBlock) : CBlock := wheelEvent b WheelOrient.vertical 1

theorem wheelDown_eq (b : CBlock) (hb : b.m_bBarrier = false) :
    wheelDown b = { b with m_PolyShape := rotStepDown b.m_PolyShape } := by
  unfold wheelDown wheelEvent
  rw [if_pos ⟨rfl, hb⟩, if_pos (by norm_num : (-1 : ℤ) < 0)]

theorem wheelUp_eq (b : CBlock) (hb : b.m_bBarrier = false) :
    wheelUp b = { b with m_PolyShape := rotStepUp b.m_PolyShape } := by
  unfold wheelUp wheelEvent
  rw [if_pos ⟨rfl, hb⟩, if_neg (by norm_num : ¬(1 : ℤ) < 0)]

theorem rotStepUp_four (s : Poly) :
    rotStepUp (rotStepUp (rotStepUp (rotStepUp s))) = s := by
  have h1 : bWidth (rotStepUp s) = bHeight s := bWidth_rotStepUp s
  have h2 : bWidth (rotStepUp (rotStepUp s)) = bWidth s := by
    rw [bWidth_rotStepUp, bHeight_rotStepUp]
  have h3 : bWidth (rotStepUp (rotStepUp (rotStepUp s))) = bHeight s := by
    rw [bWidth_rotStepUp, bHeight_rotStepUp, bWidth_rotStepUp]
  rw [rotStepUp_eq (rotStepUp (rotStepUp (rotStepUp s))), h3,
    rotStepUp_eq (rotStepUp (rotStepUp s)), h2,
    rotStepUp_eq (rotStepUp s), h1, rotStepUp_eq s,
    List.map_map, List.map_map, List.map_map]
  apply list_map_id
  intro p
  obtain ⟨x, y⟩ := p
  simp only [Function.comp_apply, Prod.mk.injEq]
  constructor
  · ring
  · ring

/-! ### Collision-scan characterisation -/

/-- The condition under which an entry of the registry makes
`CBlock::checkCollision` stop with a collision: different id, broad phase
passed, and nonempty simplified-intersection bounding size. -/
def hitP (G : Geom) (self : CBlock) (tp : Poly) (blk : CBlock) : Prop :=
  blk.m_nID ≠ self.m_nID ∧ G.collides self blk = true ∧
    sizeIsEmpty (G.interSize tp (peerBoardPath self blk)) = false

instance (G : Geom) (self : CBlock) (tp : Poly) (blk : CBlock) :
    Decidable (hitP G self tp blk) := by
  unfold hitP
  infer_instance

theorem checkCollision_cons (G : Geom) (self : CBlock) (tp : Poly)
    (blk : CBlock) (rest : List CBlock) :
    checkCollision G self tp (blk :: rest) =
      if hitP G self tp blk then true else checkCollision G self tp rest := by
  simp only [checkCollision]
  by_cases h1 : blk.m_nID ≠ self.m_nID ∧ G.collides self blk = true
  · rw [if_pos h1]
    cases hse : sizeIsEmpty (G.interSize tp (peerBoardPath self blk)) with
    | true =>
      rw [if_pos rfl,
        if_neg (fun hp => absurd (hse.symm.trans hp.2.2) (by decide))]
    | false =>
      rw [if_neg (by decide : ¬false = true),
        if_pos ⟨h1.1, h1.2, hse⟩]
  · rw [if_neg h1, if_neg (fun hp => h1 ⟨hp.1, hp.2.1⟩)]

theorem checkCollision_true_iff (G : Geom) (self : CBlock) (tp : Poly)
    (peers : List CBlock) :
    checkCollision G self tp peers = true ↔
      ∃ blk ∈ peers, hitP G self tp blk := by
  induction peers with
  | nil => simp [checkCollision]
  | cons blk rest ih =>
    rw [checkCollision_cons]
    by_cases hp : hitP G self tp blk
    · simp [hp]
    · simp [hp, ih]

/-! ### Claims -/

/-- C5: the flip is an involution — mirroring across the vertical axis and
re-anchoring by the bounding width, applied twice, returns the original
shape vertex for vertex; in particular two successive right-button presses
on a non-barrier block restore its shape. -/
theorem flip_involution :
    (∀ s : Poly, flipShape (flipShape s) = s) ∧
    ∀ (b : CBlock) (l1 l2 : List CBlock), b.m_bBarrier = false →
      (mousePressEvent (mousePressEvent b l1 MouseBtn.right).1 l2
        MouseBtn.right).1.m_PolyShape = b.m_PolyShape := by
  refine ⟨flipShape_flipShape, ?_⟩
  intro b l1 l2 hb
  have h1 : mousePressEvent b l1 MouseBtn.right =
      ({ b with m_PolyShape := flipShape b.m_PolyShape }, l1) := by
    unfold mousePressEvent
    rw [if_neg (fun h => MouseBtn.noConfusion h.1), if_pos ⟨rfl, hb⟩]
  rw [h1]
  have h2 : mousePressEvent { b with m_PolyShape := flipShape b.m_PolyShape }
      l2 MouseBtn.right =
      ({ b with m_PolyShape := flipShape (flipShape b.m_PolyShape) }, l2) := by
    unfold mousePressEvent
    rw [if_neg (fun h => MouseBtn.noConfusion h.1), if_pos ⟨rfl, hb⟩]
  rw [h2]
  exact flipShape_flipShape b.m_PolyShape

/-- Witness for C5 at a concrete block. -/
theorem flip_involution_witness :
    (mousePressEvent (mousePressEvent cSquare0 [] MouseBtn.right).1 []
      MouseBtn.right).1.m_PolyShape = cSquare0.m_PolyShape :=
  flip_involution.2 cSquare0 [] [] rfl

/-- C6: four wheel rotations in the same direction restore the shape
exactly (the truncated re-anchoring offsets cancel pairwise), and the
bounding-box dimensions are swapped after one or three rotations and match
the original after two (and four). -/
theorem wheel_rotation_cycle (b : CBlock) (hb : b.m_bBarrier = false) :
    ((wheelDown (wheelDown (wheelDown (wheelDown b)))).m_PolyShape =
        b.m_PolyShape ∧
      (wheelUp (wheelUp (wheelUp (wheelUp b)))).m_PolyShape = b.m_PolyShape) ∧
    (bWidth (wheelDown b).m_PolyShape = bHeight b.m_PolyShape ∧
      bHeight (wheelDown b).m_PolyShape = bWidth b.m_PolyShape ∧
      bWidth (wheelUp b).m_PolyShape = bHeight b.m_PolyShape ∧
      bHeight (wheelUp b).m_PolyShape = bWidth b.m_PolyShape ∧
      bWidth (wheelDown (wheelDown (wheelDown b))).m_PolyShape =
        bHeight b.m_PolyShape ∧
      bHeight (wheelDown (wheelDown (wheelDown b))).m_PolyShape =
        bWidth b.m_PolyShape ∧
      bWidth (wheelUp (wheelUp (wheelUp b))).m_PolyShape =
        bHeight b.m_PolyShape ∧
      bHeight (wheelUp (wheelUp (wheelUp b))).m_PolyShape =
        bWidth b.m_PolyShape) ∧
    (bWidth (wheelDown (wheelDown b)).m_PolyShape = bWidth b.m_PolyShape ∧
      bHeight (wheelDown (wheelDown b)).m_PolyShape = bHeight b.m_PolyShape ∧
      bWidth (wheelUp (wheelUp b)).m_PolyShape = bWidth b.m_PolyShape ∧
      bHeight (wheelUp (wheelUp b)).m_PolyShape = bHeight b.m_PolyShape) := by
  have hb1 : (wheelDown b).m_bBarrier = false := by
    rw [wheelDown, wheelEvent_barrier_eq]; exact hb
  have hb2 : (wheelDown (wheelDown b)).m_bBarrier = false := by
    rw [wheelDown, wheelEvent_barrier_eq]; exact hb1
  have hb3 : (wheelDown (wheelDown (wheelDown b))).m_bBarrier = false := by
    rw [wheelDown, wheelEvent_barrier_eq]; exact hb2
  have kb1 : (wheelUp b).m_bBarrier = false := by
    rw [wheelUp, wheelEvent_barrier_eq]; exact hb
  have kb2 : (wheelUp (wheelUp b)).m_bBarrier = false := by
    rw [wheelUp, wheelEvent_barrier_eq]; exact kb1
  have kb3 : (wheelUp (wheelUp (wheelUp b))).m_bBarrier = false := by
    rw [wheelUp, wheelEvent_barrier_eq]; exact kb2
  have d1 : (wheelDown b).m_PolyShape = rotStepDown b.m_PolyShape := by
    rw [wheelDown_eq b hb]
  have d2 : (wheelDown (wheelDown b)).m_PolyShape =
      rotStepDown (rotStepDown b.m_PolyShape) := by
    rw [wheelDown_eq _ hb1, d1]
  have d3 : (wheelDown (wheelDown (wheelDown b))).m_PolyShape =
      rotStepDown (rotStepDown (rotStepDown b.m_PolyShape)) := by
    rw [wheelDown_eq _ hb2, d2]
  have d4 : (wheelDown (wheelDown (wheelDown (wheelDown b)))).m_PolyShape =
      rotStepDown (rotStepDown (rotStepDown (rotStepDown b.m_PolyShape))) := by
    rw [wheelDown_eq _ hb3, d3]
  have u1 : (wheelUp b).m_PolyShape = rotStepUp b.m_PolyShape := by
    rw [wheelUp_eq b hb]
  have u2 : (wheelUp (wheelUp b)).m_PolyShape =
      rotStepUp (rotStepUp b.m_PolyShape) := by
    rw [wheelUp_eq _ kb1, u1]
  have u3 : (wheelUp (wheelUp (wheelUp b))).m_PolyShape =
      rotStepUp (rotStepUp (rotStepUp b.m_PolyShape)) := by
    rw [wheelUp_eq _ kb2, u2]
  have u4 : (wheelUp (wheelUp (wheelUp (wheelUp b)))).m_PolyShape =
      rotStepUp (rotStepUp (rotStepUp (rotStepUp b.m_PolyShape))) := by
    rw [wheelUp_eq _ kb3, u3]
  refine ⟨⟨?_, ?_⟩, ⟨?_, ?_, ?_, ?_, ?_, ?_, ?_, ?_⟩, ⟨?_, ?_, ?_, ?_⟩⟩
  · rw [d4, rotStepDown_four]
  · rw [u4, rotStepUp_four]
  · rw [d1, bWidth_rotStepDown]
  · rw [d1, bHeight_rotStepDown]
  · rw [u1, bWidth_rotStepUp]
  · rw [u1, bHeight_rotStepUp]
  · rw [d3, bWidth_rotStepDown, bHeight_rotStepDown, bWidth_rotStepDown]
  · rw [d3, bHeight_rotStepDown, bWidth_rotStepDown, bHeight_rotStepDown]
  · rw [u3, bWidth_rotStepUp, bHeight_rotStepUp, bWidth_rotStepUp]
  · rw [u3, bHeight_rotStepUp, bWidth_rotStepUp, bHeight_rotStepUp]
  · rw [d2, bWidth_rotStepDown, bHeight_rotStepDown]
  · rw [d2, bHeight_rotStepDown, bWidth_rotStepDown]
  · rw [u2, bWidth_rotStepUp, bHeight_rotStepUp]
  · rw [u2, bHeight_rotStepUp, bWidth_rotStepUp]

/-- Witness for C6 at a concrete block whose bounding dimensions are not
whole numbers (so the re-anchoring truncation is actually exercised). -/
theorem wheel_rotation_cycle_witness :
    (wheelDown (wheelDown (wheelDown (wheelDown cBlockA)))).m_PolyShape =
      cBlockA.m_PolyShape :=
  (wheel_rotation_cycle cBlockA rfl).1.1

/-- C7: `snapToGrid` is idempotent for every point and every positive grid
size: a snapped axis is an integer multiple of the grid, and `qRound`
fixes integers. -/
theorem snapToGrid_idempotent (g : ℕ) (p : PointQ) (hg : 0 < g) :
    snapToGrid g (snapToGrid g p) = snapToGrid g p := by
  unfold snapToGrid
  simp only [Prod.mk.injEq]
  constructor
  · exact congrArg (fun z : ℤ => ((z * (g : ℤ) : ℤ) : ℚ))
      (snapAxis_idem g hg (p.1 / (g : ℚ)))
  · exact congrArg (fun z : ℤ => ((z * (g : ℤ) : ℤ) : ℚ))
      (snapAxis_idem g hg (p.2 / (g : ℚ)))

/-- Witness for C7 at a concrete point and grid. -/
theorem snapToGrid_idempotent_witness :
    snapToGrid 2 (snapToGrid 2 (3, -5/4)) = snapToGrid 2 (3, -5/4) :=
  snapToGrid_idempotent 2 (3, -5/4) (by norm_num)

/-- C10: the wheel-handler re-anchoring amounts pass through `qint32`
variables, so the translation applied after the rotation is the
integer-truncated bounding dimension; whenever the relevant dimension
(pre-rotation bounding height for a down scroll, width for an up scroll)
is not a whole number, the applied amount differs from the exact
dimension. -/
theorem wheel_translation_truncated (b : CBlock) (hb : b.m_bBarrier = false) :
    ((wheelDown b).m_PolyShape =
        translatePath ((truncQ (bHeight b.m_PolyShape) : ℚ), 0)
          (b.m_PolyShape.map qtRot90) ∧
      ((bHeight b.m_PolyShape).den ≠ 1 →
        (truncQ (bHeight b.m_PolyShape) : ℚ) ≠ bHeight b.m_PolyShape)) ∧
    ((wheelUp b).m_PolyShape =
        translatePath (0, (truncQ (bWidth b.m_PolyShape) : ℚ))
          (b.m_PolyShape.map qtRotNeg90) ∧
      ((bWidth b.m_PolyShape).den ≠ 1 →
        (truncQ (bWidth b.m_PolyShape) : ℚ) ≠ bWidth b.m_PolyShape)) := by
  refine ⟨⟨?_, truncQ_ne_of_den_ne_one _⟩, ⟨?_, truncQ_ne_of_den_ne_one _⟩⟩
  · rw [wheelDown_eq b hb]
    rfl
  · rw [wheelUp_eq b hb]
    rfl

/-- Witness for C10 at a 5/2 by 3/2 block: both dimensions have
denominator 2, and the truncated amounts differ from the exact ones. -/
theorem wheel_translation_truncated_witness :
    (truncQ (bHeight cBlockA.m_PolyShape) : ℚ) ≠ bHeight cBlockA.m_PolyShape ∧
    (truncQ (bWidth cBlockA.m_PolyShape) : ℚ) ≠ bWidth cBlockA.m_PolyShape :=
  ⟨(wheel_translation_truncated cBlockA rfl).1.2 (by with_unfolding_all decide),
   (wheel_translation_truncated cBlockA rfl).2.2 (by with_unfolding_all decide)⟩

/-- C4 counterexample: at a concrete 5/2 by 3/2 non-barrier block, a
down scroll translates the rotated shape by the truncated height 1, not by
the exact height 3/2 — and a fortiori not by a width translation along y —
so neither way of matching the claim directions to the two scroll senses
makes the exact-dimension translation of the claim true. -/
theorem wheel_exact_translation_fails :
    (wheelDown cBlockA).m_PolyShape ≠
        translatePath ((bHeight cBlockA.m_PolyShape), 0)
          (cBlockA.m_PolyShape.map qtRot90) ∧
    (wheelDown cBlockA).m_PolyShape ≠
        translatePath (0, (bWidth cBlockA.m_PolyShape))
          (cBlockA.m_PolyShape.map qtRotNeg90) := by
  with_unfolding_all decide

/-- C4 (amended): a vertical wheel gesture on a non-barrier block with
negative delta applies `QTransform::rotate(90)` — the map
`(x, y) ↦ (-y, x)`, a -90 degree turn in the on-screen y-down frame — and
translates by the integer-truncated bounding height along x; with
non-negative delta it applies `QTransform::rotate(-90)` — the map
`(x, y) ↦ (y, -x)`, on screen +90 degrees — and translates by the
integer-truncated bounding width along y; horizontal gestures change
nothing. -/
theorem wheel_gesture_dispatch (b : CBlock) (d : ℤ) (hb : b.m_bBarrier = false) :
    (d < 0 → wheelEvent b WheelOrient.vertical d =
      { b with m_PolyShape :=
                 translatePath ((truncQ (bHeight b.m_PolyShape) : ℚ), 0)
                   (b.m_PolyShape.map qtRot90) }) ∧
    (0 ≤ d → wheelEvent b WheelOrient.vertical d =
      { b with m_PolyShape :=
                 translatePath (0, (truncQ (bWidth b.m_PolyShape) : ℚ))
                   (b.m_PolyShape.map qtRotNeg90) }) ∧
    wheelEvent b WheelOrient.horizontal d = b := by
  refine ⟨?_, ?_, ?_⟩
  · intro hd
    unfold wheelEvent
    rw [if_pos ⟨rfl, hb⟩, if_pos hd]
    rfl
  · intro hd
    unfold wheelEvent
    rw [if_pos ⟨rfl, hb⟩, if_neg (not_lt.mpr hd)]
    rfl
  · unfold wheelEvent
    rw [if_neg (fun h => WheelOrient.noConfusion h.1)]

/-- Witness for the amended C4 at a concrete block and delta. -/
theorem wheel_gesture_dispatch_witness :
    wheelEvent cBlockA WheelOrient.vertical (-1) =
      { cBlockA with m_PolyShape :=
                       translatePath ((truncQ (bHeight cBlockA.m_PolyShape) : ℚ), 0)
                         (cBlockA.m_PolyShape.map qtRot90) } :=
  (wheel_gesture_dispatch cBlockA (-1) rfl).1 (by norm_num)

/-- C8: a barrier block ignores presses (either button), releases and
wheel gestures completely: its whole state — in particular position, shape
and z value — and the registry are returned unchanged, and no signal is
emitted. -/
theorem barrier_immutable (G : Geom) (b : CBlock) (peers : List CBlock)
    (btn : MouseBtn) (o : WheelOrient) (d : ℤ) (hb : b.m_bBarrier = true) :
    mousePressEvent b peers btn = (b, peers) ∧
    wheelEvent b o d = b ∧
    mouseReleaseEvent G peers b btn = (b, []) := by
  have hnb : ¬b.m_bBarrier = false := by rw [hb]; decide
  refine ⟨?_, ?_, ?_⟩
  · unfold mousePressEvent
    rw [if_neg (fun h => hnb h.2), if_neg (fun h => hnb h.2)]
  · unfold wheelEvent
    rw [if_neg (fun h => hnb h.2)]
  · unfold mouseReleaseEvent
    rw [if_neg (fun h => hnb h.2)]

/-- Witness for C8 at a concrete barrier. -/
theorem barrier_immutable_witness :
    mousePressEvent cBarrier [] MouseBtn.left = (cBarrier, []) ∧
    wheelEvent cBarrier WheelOrient.vertical (-1) = cBarrier ∧
    mouseReleaseEvent rectGeom [] cBarrier MouseBtn.left = (cBarrier, []) :=
  barrier_immutable rectGeom cBarrier [] MouseBtn.left WheelOrient.vertical
    (-1) rfl

/-- C9: construction is total and permissive: for every input the block is
fully initialised with the given members (an unclosed shape included), and
the not-closed warning is logged exactly when the shape polygon is not
closed. -/
theorem mkCBlock_permissive (nID : ℕ) (shape : Poly) (nGrid : ℕ)
    (posTopLeft : PointQ) (bBarrier : Bool) :
    ((mkCBlock nID shape nGrid posTopLeft bBarrier).1.m_nID = nID ∧
      (mkCBlock nID shape nGrid posTopLeft bBarrier).1.m_PolyShape = shape ∧
      (mkCBlock nID shape nGrid posTopLeft bBarrier).1.m_nGrid = nGrid ∧
      (mkCBlock nID shape nGrid posTopLeft bBarrier).1.m_bBarrier = bBarrier ∧
      (mkCBlock nID shape nGrid posTopLeft bBarrier).1.pos =
        (posTopLeft.1 * (nGrid : ℚ), posTopLeft.2 * (nGrid : ℚ)) ∧
      (mkCBlock nID shape nGrid posTopLeft bBarrier).1.m_bMousePressed =
        false) ∧
    (LogMsg.shapeNotClosed nID ∈ (mkCBlock nID shape nGrid posTopLeft
        bBarrier).2 ↔ isClosedPoly shape = false) := by
  refine ⟨⟨rfl, rfl, rfl, rfl, rfl, rfl⟩, ?_⟩
  cases hcl : isClosedPoly shape <;> cases bBarrier <;>
    simp [mkCBlock, hcl]

/-- C1: for a pair of blocks with distinct ids and a geometry engine whose
broad phase is complete (any pair with a nonempty simplified-intersection
bounding size also passes `collidesWithItem`, as Qt guarantees),
`checkCollision` reports a collision iff the bounding box of the
simplified intersection of the candidate path with the peer board-path has
positive width and height; in particular whenever that bounding size is
empty — as for two polygons touching only along a shared edge or at a
single point — no collision is reported. -/
theorem checkCollision_pair_iff (G : Geom) (self blk : CBlock) (tp : Poly)
    (hne : blk.m_nID ≠ self.m_nID)
    (hbroad : sizeIsEmpty (G.interSize tp (peerBoardPath self blk)) = false →
      G.collides self blk = true) :
    (checkCollision G self tp [blk] = true ↔
      sizeIsEmpty (G.interSize tp (peerBoardPath self blk)) = false) ∧
    (sizeIsEmpty (G.interSize tp (peerBoardPath self blk)) = true →
      checkCollision G self tp [blk] = false) := by
  have hiff : checkCollision G self tp [blk] = true ↔
      sizeIsEmpty (G.interSize tp (peerBoardPath self blk)) = false := by
    rw [checkCollision_true_iff]
    constructor
    · rintro ⟨x, hx, hP⟩
      obtain rfl := List.mem_singleton.mp hx
      exact hP.2.2
    · intro hse
      exact ⟨blk, List.mem_singleton.mpr rfl, hne, hbroad hse, hse⟩
  refine ⟨hiff, ?_⟩
  intro hse
  cases hval : checkCollision G self tp [blk] with
  | false => rfl
  | true => exact absurd (hse.symm.trans (hiff.mp hval)) (by decide)

/-- Witness for C1: two unit squares sharing exactly one edge in board
coordinates are not reported as colliding (the intersection bounding size
has zero width). -/
theorem checkCollision_pair_iff_witness :
    checkCollision rectGeom cSquare0 (peerBoardPath cSquare0 cSquare0)
      [cSquare1] = false :=
  (checkCollision_pair_iff rectGeom cSquare0 cSquare1
      (peerBoardPath cSquare0 cSquare0) (by decide) (fun _ => rfl)).2
    (by with_unfolding_all decide)

/-- C3: the collision scan never compares a block against itself (registry
entries carrying the own id are skipped, whatever the registry contains),
returns true exactly when some entry with a different id passes the broad
phase with a nonempty simplified-intersection bounding size, and is
decided by the first such entry — the short-circuit recursion equation —
returning false when no entry collides. -/
theorem checkCollision_scan (G : Geom) (self : CBlock) (tp : Poly) :
    (∀ peers, checkCollision G self tp peers = true ↔
      ∃ blk ∈ peers, hitP G self tp blk) ∧
    (∀ blk rest, checkCollision G self tp (blk :: rest) =
      if hitP G self tp blk then true else checkCollision G self tp rest) ∧
    (∀ peers, (∀ blk ∈ peers, blk.m_nID = self.m_nID) →
      checkCollision G self tp peers = false) := by
  refine ⟨checkCollision_true_iff G self tp, checkCollision_cons G self tp, ?_⟩
  intro peers hall
  cases hval : checkCollision G self tp peers with
  | false => rfl
  | true =>
    obtain ⟨x, hx, hP⟩ := (checkCollision_true_iff G self tp peers).mp hval
    exact absurd (hall x hx) hP.1

/-- Witness for C3: a registry containing (a copy of) the block itself
produces no collision, although the shape fully overlaps itself. -/
theorem checkCollision_scan_witness :
    checkCollision rectGeom cSquare0 (peerBoardPath cSquare0 cSquare0)
      [cSquare0] = false :=
  (checkCollision_scan rectGeom cSquare0
      (peerBoardPath cSquare0 cSquare0)).2.2 [cSquare0]
    (fun blk hb => by rw [List.mem_singleton.mp hb])

/-- C2: a left-button release of a non-barrier snaps the position to the
grid, emits `incrementMoves` unconditionally and first, then runs the
collision check on the snapped board-coordinate shape; on collision it
resets the position to the snapped `m_posBlockSelected` (the position
recorded at left-press time) and does not emit `checkPuzzleSolved`; with
no collision it keeps the snapped position and emits
`checkPuzzleSolved`. -/
theorem endDrag_commit_or_rollback (G : Geom) (peers : List CBlock)
    (b : CBlock) (hb : b.m_bBarrier = false) :
    (mousePressEvent b peers MouseBtn.left).1.m_posBlockSelected = b.pos ∧
    (checkCollision G (dragSnapped b)
        (peerBoardPath (dragSnapped b) (dragSnapped b)) peers = true →
      mouseReleaseEvent G peers b MouseBtn.left =
        ({ dragSnapped b with
             pos := snapToGrid b.m_nGrid b.m_posBlockSelected },
         [Sig.incrementMoves])) ∧
    (checkCollision G (dragSnapped b)
        (peerBoardPath (dragSnapped b) (dragSnapped b)) peers = false →
      mouseReleaseEvent G peers b MouseBtn.left =
        (dragSnapped b, [Sig.incrementMoves, Sig.checkPuzzleSolved])) ∧
    Sig.incrementMoves ∈ (mouseReleaseEvent G peers b MouseBtn.left).2 := by
  have hrel : mouseReleaseEvent G peers b MouseBtn.left =
      if checkCollision G (dragSnapped b)
          (peerBoardPath (dragSnapped b) (dragSnapped b)) peers then
        ({ dragSnapped b with
             pos := snapToGrid b.m_nGrid b.m_posBlockSelected },
         [Sig.incrementMoves])
      else (dragSnapped b, [Sig.incrementMoves, Sig.checkPuzzleSolved]) := by
    unfold mouseReleaseEvent
    rw [if_pos ⟨rfl, hb⟩]
    rfl
  refine ⟨?_, ?_, ?_, ?_⟩
  · unfold mousePressEvent
    rw [if_pos ⟨rfl, hb⟩]
  · intro hc
    rw [hrel, if_pos hc]
  · intro hc
    rw [hrel, if_neg (fun h => absurd (hc.symm.trans h) (by decide))]
  · cases hval : checkCollision G (dragSnapped b)
        (peerBoardPath (dragSnapped b) (dragSnapped b)) peers with
    | true =>
      rw [hrel, if_pos hval]
      exact List.mem_singleton.mpr rfl
    | false =>
      rw [hrel, if_neg (fun h => absurd (hval.symm.trans h) (by decide))]
      exact List.mem_cons_self _ _

/-- Witness for C2: releasing a block over an empty registry commits the
snapped position and emits both signals. -/
theorem endDrag_commit_or_rollback_witness :
    mouseReleaseEvent rectGeom [] cSquare0 MouseBtn.left =
      (dragSnapped cSquare0, [Sig.incrementMoves, Sig.checkPuzzleSolved]) :=
  (endDrag_commit_or_rollback rectGeom [] cSquare0 rfl).2.2.1 rfl

end IQPuzzle
